import Mathlib

/-!
Shallow embedding of the 2020rule repository (Go) for spec verification.

The core is the timer state machine (`package timer`, type `Manager`) with
its four states, the activity/config/stats collaborators.  Modelling choices:

* `time.Duration` and `time.Time` are both `Int` (nanoseconds); `time.Since(t)`
  at clock instant `now` is `now - t`.
* Every operation takes the current clock instant `now : Int` explicitly.
* `m.currentTimer` (a `*time.Timer`) is modelled as `Option Int`: the absolute
  instant the armed wake-up would fire, `none` when cancelled/absent.
  `time.AfterFunc`'s registered body is the separate operation `fireWorkTimer`.
* The stats store and the registered callbacks are external collaborators; the
  calls the Manager makes to them are recorded in an `Effect` list, in source
  order.  A callback invocation is tagged with `underLock = true` when the Go
  code calls it directly inside the `m.mu.Lock()` critical section, and
  `underLock = false` when it is dispatched with `go ...` (the spawned
  goroutine runs the callback without holding `m.mu`).  The Go code guards
  each callback call with a nil check (`if m.onX != nil`); registration is
  external, so the effect records the invocation attempt unconditionally.
* `RecordBreakStart` can fail; its outcome is an oracle argument
  `res : Option Int` (`some id` on success, `none` on error).  The Go nil
  check `m.statsStore != nil` is modelled as the store being present, as it is
  in the application.
* Go `float64` (config opacity, compliance rate) is modelled by exact
  rationals; the code only compares, divides and multiplies these values.
-/

namespace TwentyTwenty

/-- One nanosecond-count per second, `time.Second`. -/
def nsPerSecond : Int := 1000000000

/-- Nanoseconds per minute, `time.Minute`. -/
def nsPerMinute : Int := 60 * nsPerSecond

/-- Go struct `config.Config` (internal/config/types.go). Durations in
nanoseconds, opacity an exact rational standing for the `float64`. -/
structure Config where
  workDuration : Int
  breakDuration : Int
  idleThreshold : Int
  autoStartOnLogin : Bool
  pauseOnFullscreen : Bool
  notificationSound : Bool
  overlayOpacity : ℚ
  firstRun : Bool
deriving DecidableEq, Repr

/-- The sentinel errors of internal/config (errors.go): the four validation
errors `Config.Validate` can return. -/
inductive ConfigError
  | invalidWorkDuration
  | invalidBreakDuration
  | invalidIdleThreshold
  | invalidOpacity
deriving DecidableEq, Repr

/-- Go `Config.Validate` (internal/config/types.go): the first violated bound
wins; `none` stands for the Go `nil` error. The receiver is read-only, which
the pure-function embedding makes structural. -/
def Config.validate (c : Config) : Option ConfigError :=
  if c.workDuration < 1 * nsPerMinute then some ConfigError.invalidWorkDuration
  else if c.breakDuration < 1 * nsPerSecond then some ConfigError.invalidBreakDuration
  else if c.idleThreshold < 1 * nsPerMinute then some ConfigError.invalidIdleThreshold
  else if c.overlayOpacity < 0 ∨ 1 < c.overlayOpacity then some ConfigError.invalidOpacity
  else none

/-- Go `stats.CalculateComplianceRate` (stats types file): percentage of
completed over total, `0.0` when total is zero. -/
def CalculateComplianceRate (completed total : Int) : ℚ :=
  if total = 0 then 0
  else (completed : ℚ) / (total : ℚ) * 100

/-- Go `timer.State` (`StateRunning`, `StateBreakRequired`, `StatePausedManual`,
`StatePausedInactive`), the iota enum the Manager ever assigns. -/
inductive TimerState
  | running
  | breakRequired
  | pausedManual
  | pausedInactive
deriving DecidableEq, Repr

/-- A call the Manager makes on the stats store during a transition. -/
inductive LedgerOp
  | breakStart
  | breakComplete (id : Int) (duration : Int)
  | breakSkipped (id : Int)
deriving DecidableEq, Repr

/-- A registered callback the Manager invokes. -/
inductive Callback
  | stateChange (s : TimerState)
  | breakRequired
  | breakComplete
deriving DecidableEq, Repr

/-- One externally visible action of a Manager operation, in source order.
For `invoke`, `underLock` is true exactly when the Go source calls the
callback directly inside the mutex-held section, false when it spawns a
goroutine (`go m.onStateChange(state)`), whose execution of the callback does
not hold `m.mu` and does not block the caller. -/
inductive Effect
  | ledger (op : LedgerOp)
  | invoke (cb : Callback) (underLock : Bool)
deriving DecidableEq, Repr

/-- Mutable fields of Go `timer.Manager` (config and store held by reference
externally; callbacks are environment). -/
structure Manager where
  state : TimerState
  workStartTime : Int
  breakStartTime : Int
  currentBreakID : Int
  elapsed : Int
  pauseTime : Int
  currentTimer : Option Int
deriving DecidableEq, Repr

/-- Go `timer.NewManager`: initial state `StatePausedManual`, all other fields
Go zero values (`time.Time{}` and `0` both modelled as `0`, no timer). -/
def newManager : Manager :=
  { state := TimerState.pausedManual
    workStartTime := 0
    breakStartTime := 0
    currentBreakID := 0
    elapsed := 0
    pauseTime := 0
    currentTimer := none }

/-- Go `Manager.stopCurrentTimer`: cancel the pending wake-up if any. -/
def stopCurrentTimer (m : Manager) : Manager :=
  { m with currentTimer := none }

/-- Go `Manager.triggerBreak`: record a break start (on success the returned
id becomes `currentBreakID`; on error it is left as-is), enter
`StateBreakRequired`, mark `breakStartTime`, notify the state change in a
goroutine, then call `onBreakRequired` directly while still holding the lock. -/
def triggerBreak (res : Option Int) (now : Int) (m : Manager) : Manager × List Effect :=
  let m1 : Manager :=
    match res with
    | some id => { m with currentBreakID := id }
    | none => m
  let m2 : Manager := { m1 with state := TimerState.breakRequired, breakStartTime := now }
  (m2,
   [Effect.ledger LedgerOp.breakStart,
    Effect.invoke (Callback.stateChange TimerState.breakRequired) false,
    Effect.invoke Callback.breakRequired true])

/-- Go `Manager.scheduleWorkTimer`: cancel any pending wake-up, then either
trigger the break at once (no work time remaining) or arm a wake-up for the
remaining work time. -/
def scheduleWorkTimer (cfg : Config) (res : Option Int) (now : Int) (m : Manager) :
    Manager × List Effect :=
  let m1 := stopCurrentTimer m
  let remaining := cfg.workDuration - m1.elapsed
  if remaining ≤ 0 then triggerBreak res now m1
  else ({ m1 with currentTimer := some (now + remaining) }, [])

/-- The body registered with `time.AfterFunc` in Go `Manager.scheduleWorkTimer`:
on firing it takes the lock and triggers the break only if the state is still
`StateRunning`. -/
def fireWorkTimer (res : Option Int) (now : Int) (m : Manager) : Manager × List Effect :=
  if m.state = TimerState.running then triggerBreak res now m
  else (m, [])

/-- Go `Manager.Start`: no-op while running or in break; otherwise enter
`StateRunning`, stamp `workStartTime`, reset elapsed, schedule the work timer,
notify the (then current) state. -/
def Manager.start (cfg : Config) (res : Option Int) (now : Int) (m : Manager) :
    Manager × List Effect :=
  if m.state = TimerState.running ∨ m.state = TimerState.breakRequired then (m, [])
  else
    let m1 : Manager := { m with state := TimerState.running, workStartTime := now, elapsed := 0 }
    let r := scheduleWorkTimer cfg res now m1
    (r.1, r.2 ++ [Effect.invoke (Callback.stateChange r.1.state) false])

/-- Go `Manager.Pause`: only from `StateRunning`; cancel the wake-up, stamp
`pauseTime`, bank the running interval into `elapsed`, enter
`StatePausedManual`. -/
def Manager.pause (now : Int) (m : Manager) : Manager × List Effect :=
  if m.state ≠ TimerState.running then (m, [])
  else
    let m1 := stopCurrentTimer m
    let m2 : Manager :=
      { m1 with pauseTime := now
                elapsed := m1.elapsed + (now - m1.workStartTime)
                state := TimerState.pausedManual }
    (m2, [Effect.invoke (Callback.stateChange TimerState.pausedManual) false])

/-- Go `Manager.PauseInactive`: as `Pause` but entering `StatePausedInactive`. -/
def Manager.pauseInactive (now : Int) (m : Manager) : Manager × List Effect :=
  if m.state ≠ TimerState.running then (m, [])
  else
    let m1 := stopCurrentTimer m
    let m2 : Manager :=
      { m1 with pauseTime := now
                elapsed := m1.elapsed + (now - m1.workStartTime)
                state := TimerState.pausedInactive }
    (m2, [Effect.invoke (Callback.stateChange TimerState.pausedInactive) false])

/-- Go `Manager.Resume`: from either paused state; enter `StateRunning`, stamp
`workStartTime`, re-schedule the work timer, notify the (then current) state. -/
def Manager.resume (cfg : Config) (res : Option Int) (now : Int) (m : Manager) :
    Manager × List Effect :=
  if m.state ≠ TimerState.pausedManual ∧ m.state ≠ TimerState.pausedInactive then (m, [])
  else
    let m1 : Manager := { m with state := TimerState.running, workStartTime := now }
    let r := scheduleWorkTimer cfg res now m1
    (r.1, r.2 ++ [Effect.invoke (Callback.stateChange r.1.state) false])

/-- Go `Manager.ResumeFromInactive`: the guard accepts only
`StatePausedInactive` (a manual pause is not resumed by an idle-active edge);
otherwise as `Resume`. -/
def Manager.resumeFromInactive (cfg : Config) (res : Option Int) (now : Int) (m : Manager) :
    Manager × List Effect :=
  if m.state ≠ TimerState.pausedInactive then (m, [])
  else
    let m1 : Manager := { m with state := TimerState.running, workStartTime := now }
    let r := scheduleWorkTimer cfg res now m1
    (r.1, r.2 ++ [Effect.invoke (Callback.stateChange r.1.state) false])

/-- Go `Manager.CompleteBreak`: only from `StateBreakRequired`; record
completion when a ledger entry is open (`currentBreakID > 0`) with duration
`now - breakStartTime`, reset accounting, re-enter `StateRunning`, re-schedule,
notify state, then call `onBreakComplete` directly under the lock. -/
def Manager.completeBreak (cfg : Config) (res : Option Int) (now : Int) (m : Manager) :
    Manager × List Effect :=
  if m.state ≠ TimerState.breakRequired then (m, [])
  else
    let ledgerEffs : List Effect :=
      if 0 < m.currentBreakID then
        [Effect.ledger (LedgerOp.breakComplete m.currentBreakID (now - m.breakStartTime))]
      else []
    let m1 : Manager :=
      { m with state := TimerState.running, workStartTime := now
               elapsed := 0, currentBreakID := 0 }
    let r := scheduleWorkTimer cfg res now m1
    (r.1, ledgerEffs ++ r.2 ++
      [Effect.invoke (Callback.stateChange r.1.state) false,
       Effect.invoke Callback.breakComplete true])

/-- Go `Manager.SkipBreak`: as `CompleteBreak` but recording a skip and with
no `onBreakComplete` call. -/
def Manager.skipBreak (cfg : Config) (res : Option Int) (now : Int) (m : Manager) :
    Manager × List Effect :=
  if m.state ≠ TimerState.breakRequired then (m, [])
  else
    let ledgerEffs : List Effect :=
      if 0 < m.currentBreakID then
        [Effect.ledger (LedgerOp.breakSkipped m.currentBreakID)]
      else []
    let m1 : Manager :=
      { m with state := TimerState.running, workStartTime := now
               elapsed := 0, currentBreakID := 0 }
    let r := scheduleWorkTimer cfg res now m1
    (r.1, ledgerEffs ++ r.2 ++
      [Effect.invoke (Callback.stateChange r.1.state) false])

/-- Go `Manager.Stop`: from any state, cancel the wake-up, enter
`StatePausedManual`, zero `elapsed`, notify. -/
def Manager.stop (m : Manager) : Manager × List Effect :=
  let m1 := stopCurrentTimer m
  let m2 : Manager := { m1 with state := TimerState.pausedManual, elapsed := 0 }
  (m2, [Effect.invoke (Callback.stateChange TimerState.pausedManual) false])

/-- Go `Manager.GetTimeUntilBreak`: zero unless running; otherwise the work
duration minus total elapsed (banked plus current interval), clamped at zero. -/
def Manager.getTimeUntilBreak (cfg : Config) (now : Int) (m : Manager) : Int :=
  if m.state ≠ TimerState.running then 0
  else
    let totalElapsed := m.elapsed + (now - m.workStartTime)
    let remaining := cfg.workDuration - totalElapsed
    if remaining < 0 then 0 else remaining

/-- Go `Manager.GetBreakTimeRemaining`: zero unless in break; otherwise the
break duration minus time since the break started, clamped at zero. -/
def Manager.getBreakTimeRemaining (cfg : Config) (now : Int) (m : Manager) : Int :=
  if m.state ≠ TimerState.breakRequired then 0
  else
    let remaining := cfg.breakDuration - (now - m.breakStartTime)
    if remaining < 0 then 0 else remaining

/-- One external stimulus to the Manager, with its clock instant and, where a
ledger break-start can occur, the store's response oracle. -/
inductive Trigger
  | start (res : Option Int) (now : Int)
  | pause (now : Int)
  | pauseInactive (now : Int)
  | resume (res : Option Int) (now : Int)
  | resumeFromInactive (res : Option Int) (now : Int)
  | completeBreak (res : Option Int) (now : Int)
  | skipBreak (res : Option Int) (now : Int)
  | fire (res : Option Int) (now : Int)
  | stop
deriving DecidableEq, Repr

/-- Dispatch one trigger to the corresponding Manager operation. -/
def applyTrigger (cfg : Config) (m : Manager) : Trigger → Manager × List Effect
  | Trigger.start res now => m.start cfg res now
  | Trigger.pause now => m.pause now
  | Trigger.pauseInactive now => m.pauseInactive now
  | Trigger.resume res now => m.resume cfg res now
  | Trigger.resumeFromInactive res now => m.resumeFromInactive cfg res now
  | Trigger.completeBreak res now => m.completeBreak cfg res now
  | Trigger.skipBreak res now => m.skipBreak cfg res now
  | Trigger.fire res now => fireWorkTimer res now m
  | Trigger.stop => m.stop

/-- Run a sequence of triggers from a starting Manager, keeping the state. -/
def runTriggers (cfg : Config) : Manager → List Trigger → Manager
  | m, [] => m
  | m, t :: ts => runTriggers cfg (applyTrigger cfg m t).1 ts

/-- A concrete configuration used by witnesses: the 1200s/20s/300s scenario of
the spec, opacity 0.95. -/
def cfgEx : Config :=
  { workDuration := 1200 * nsPerSecond
    breakDuration := 20 * nsPerSecond
    idleThreshold := 300 * nsPerSecond
    autoStartOnLogin := true
    pauseOnFullscreen := false
    notificationSound := true
    overlayOpacity := 19 / 20
    firstRun := true }

/-- A running Manager with no open ledger entry, used by witnesses. -/
def mRunningEx : Manager :=
  { state := TimerState.running, workStartTime := 0, breakStartTime := 0,
    currentBreakID := 0, elapsed := 0, pauseTime := 0, currentTimer := some 5 }

/-- A manually paused Manager with 100 banked, used by the C4
counterexample and witness. -/
def mPausedEx : Manager :=
  { state := TimerState.pausedManual, workStartTime := 0, breakStartTime := 0,
    currentBreakID := 0, elapsed := 100, pauseTime := 0, currentTimer := none }

/-- An inactivity-paused Manager with 100 banked, used by witnesses. -/
def mInactiveEx : Manager :=
  { state := TimerState.pausedInactive, workStartTime := 0, breakStartTime := 0,
    currentBreakID := 0, elapsed := 100, pauseTime := 0, currentTimer := none }

/-- C1: at every clock instant, in `Running` the time-until-break query
returns `max 0 (workDuration - accumulatedElapsed - (now - workStartedAt))`;
in `BreakRequired` the break-time-remaining query returns
`max 0 (breakDuration - (now - breakStartedAt))`; and each query returns zero
(never negative, never an error) in every state other than its valid one. -/
theorem queries_match_state_formulas (cfg : Config) (now : Int) (m : Manager) :
    (m.state = TimerState.running →
      m.getTimeUntilBreak cfg now =
        max 0 (cfg.workDuration - m.elapsed - (now - m.workStartTime))) ∧
    (m.state = TimerState.breakRequired →
      m.getBreakTimeRemaining cfg now =
        max 0 (cfg.breakDuration - (now - m.breakStartTime))) ∧
    (m.state ≠ TimerState.running → m.getTimeUntilBreak cfg now = 0) ∧
    (m.state ≠ TimerState.breakRequired → m.getBreakTimeRemaining cfg now = 0) := by
  refine ⟨fun h => ?_, fun h => ?_, fun h => ?_, fun h => ?_⟩ <;>
    simp [Manager.getTimeUntilBreak, Manager.getBreakTimeRemaining, h] <;>
    split <;> omega

/-- C8: the compliance rate of `completed` out of `total` breaks
(`0 ≤ completed ≤ total`) is `completed / total * 100`, and exactly `0` when
`total = 0`, with no division fault (the zero case is guarded before any
division happens). -/
theorem calculateComplianceRate_spec (completed total : Int)
    (_h0 : 0 ≤ completed) (_h1 : completed ≤ total) :
    (total = 0 → CalculateComplianceRate completed total = 0) ∧
    (total ≠ 0 →
      CalculateComplianceRate completed total = (completed : ℚ) / (total : ℚ) * 100) := by
  constructor <;> intro h <;> simp [CalculateComplianceRate, h]

/-- Witness for C8 at `completed = 3`, `total = 4`. -/
theorem calculateComplianceRate_spec_witness :
    CalculateComplianceRate 3 4 = (3 : ℚ) / (4 : ℚ) * 100 :=
  (calculateComplianceRate_spec 3 4 (by norm_num) (by norm_num)).2 (by norm_num)

/-- C9: `Config.Validate` returns an error exactly when one of the four
bounds is violated (work < 1 min, break < 1 s, idle < 1 min, opacity outside
`[0, 1]`), and returns `nil` for every configuration meeting all four bounds;
the receiver is read-only (the embedding is a pure function of the config). -/
theorem validate_none_iff_bounds (c : Config) :
    (c.validate = none ↔
      (nsPerMinute ≤ c.workDuration ∧ nsPerSecond ≤ c.breakDuration ∧
       nsPerMinute ≤ c.idleThreshold ∧ 0 ≤ c.overlayOpacity ∧ c.overlayOpacity ≤ 1)) ∧
    (c.validate ≠ none ↔
      (c.workDuration < nsPerMinute ∨ c.breakDuration < nsPerSecond ∨
       c.idleThreshold < nsPerMinute ∨
       c.overlayOpacity < 0 ∨ 1 < c.overlayOpacity)) := by
  have hmain : c.validate = none ↔
      (nsPerMinute ≤ c.workDuration ∧ nsPerSecond ≤ c.breakDuration ∧
       nsPerMinute ≤ c.idleThreshold ∧ 0 ≤ c.overlayOpacity ∧ c.overlayOpacity ≤ 1) := by
    rw [Config.validate]
    simp only [one_mul]
    split_ifs with h1 h2 h3 h4
    · exact iff_of_false (fun h => nomatch h)
        (by rintro ⟨ha, -, -, -, -⟩; exact absurd h1 (not_lt.mpr ha))
    · exact iff_of_false (fun h => nomatch h)
        (by rintro ⟨-, hb, -, -, -⟩; exact absurd h2 (not_lt.mpr hb))
    · exact iff_of_false (fun h => nomatch h)
        (by rintro ⟨-, -, hc, -, -⟩; exact absurd h3 (not_lt.mpr hc))
    · refine iff_of_false (fun h => nomatch h) ?_
      rintro ⟨-, -, -, hd, he⟩
      rcases h4 with h | h
      · exact absurd h (not_lt.mpr hd)
      · exact absurd h (not_lt.mpr he)
    · push_neg at h1 h2 h3 h4
      exact iff_of_true rfl ⟨h1, h2, h3, h4.1, h4.2⟩
  refine ⟨hmain, ?_⟩
  rw [ne_eq, hmain]
  simp only [not_and_or, not_le]

/-- C10 (frame effect of `Stop`): from every state, `Stop` moves to
`PausedManual`, cancels the pending wake-up and zeroes `elapsed`, leaves
`currentBreakID`, `breakStartTime`, `workStartTime` and `pauseTime`
unchanged, and performs no ledger write at all (its only effect is the
asynchronous state-change notification) — in particular a break entry open in
`BreakRequired` is neither completed nor skipped. -/
theorem stop_frame (m : Manager) :
    m.stop = ({ m with state := TimerState.pausedManual
                       elapsed := 0
                       currentTimer := none },
              [Effect.invoke (Callback.stateChange TimerState.pausedManual) false]) := by
  rfl

/-- C3: every trigger received in a state for which the transition table
lists no transition for it is a silent no-op, never an error: the Manager
(state, accounting quadruple and timer included) is returned unchanged and no
effect — no ledger write, no notification — is produced.  In particular
`completeBreak` outside `BreakRequired` changes nothing, and a stale work
wake-up firing when the state is no longer `Running` changes nothing. -/
theorem illegal_triggers_are_noops (cfg : Config) (res : Option Int) (now : Int) (m : Manager) :
    (m.state = TimerState.running ∨ m.state = TimerState.breakRequired →
      m.start cfg res now = (m, [])) ∧
    (m.state ≠ TimerState.running → m.pause now = (m, [])) ∧
    (m.state ≠ TimerState.running → m.pauseInactive now = (m, [])) ∧
    (m.state ≠ TimerState.pausedManual ∧ m.state ≠ TimerState.pausedInactive →
      m.resume cfg res now = (m, [])) ∧
    (m.state = TimerState.running ∨ m.state = TimerState.breakRequired →
      m.resumeFromInactive cfg res now = (m, [])) ∧
    (m.state ≠ TimerState.breakRequired → m.completeBreak cfg res now = (m, [])) ∧
    (m.state ≠ TimerState.breakRequired → m.skipBreak cfg res now = (m, [])) ∧
    (m.state ≠ TimerState.running → fireWorkTimer res now m = (m, [])) := by
  refine ⟨fun h => ?_, fun h => ?_, fun h => ?_, fun h => ?_,
          fun h => ?_, fun h => ?_, fun h => ?_, fun h => ?_⟩
  · rcases h with h | h <;> simp [Manager.start, h]
  · simp [Manager.pause, h]
  · simp [Manager.pauseInactive, h]
  · simp [Manager.resume, h.1, h.2]
  · rcases h with h | h <;> simp [Manager.resumeFromInactive, h]
  · simp [Manager.completeBreak, h]
  · simp [Manager.skipBreak, h]
  · simp [fireWorkTimer, h]

/-- Witness for C3 (its parts have hypotheses): at a Manager in
`BreakRequired`, `pause` is a no-op. -/
theorem illegal_triggers_are_noops_witness :
    ({ state := TimerState.breakRequired, workStartTime := 0, breakStartTime := 5,
       currentBreakID := 7, elapsed := 3, pauseTime := 0,
       currentTimer := none } : Manager).pause 9 =
      (({ state := TimerState.breakRequired, workStartTime := 0, breakStartTime := 5,
          currentBreakID := 7, elapsed := 3, pauseTime := 0,
          currentTimer := none } : Manager), []) :=
  (illegal_triggers_are_noops cfgEx none 9
    { state := TimerState.breakRequired, workStartTime := 0, breakStartTime := 5,
      currentBreakID := 7, elapsed := 3, pauseTime := 0,
      currentTimer := none }).2.1 (by decide)

/-- C6: a newly created scheduler is in `PausedManual` (it never auto-runs),
and after every sequence of triggers it is in exactly one of the four states. -/
theorem initial_state_and_state_closure (cfg : Config) (ts : List Trigger) :
    newManager.state = TimerState.pausedManual ∧
    ((runTriggers cfg newManager ts).state = TimerState.running ∨
     (runTriggers cfg newManager ts).state = TimerState.breakRequired ∨
     (runTriggers cfg newManager ts).state = TimerState.pausedManual ∨
     (runTriggers cfg newManager ts).state = TimerState.pausedInactive) := by
  refine ⟨rfl, ?_⟩
  cases (runTriggers cfg newManager ts).state <;> simp

/-- C2: banked elapsed work is preserved across pause/resume: starting at
`t0`, pausing (manually, or via the idle signal) after `t` of running time,
then resuming (via the matching trigger) at an arbitrary instant `t1`, the
time-until-break immediately after the resume is exactly `workDuration - t`,
independent of how long the scheduler was paused (`t1` is unconstrained). -/
theorem banked_elapsed_preserved (cfg : Config) (res1 res2 res3 res4 : Option Int)
    (t0 t t1 : Int) (hW : 0 < cfg.workDuration) (h0 : 0 ≤ t) (h1 : t ≤ cfg.workDuration) :
    ((((newManager.start cfg res1 t0).1.pause (t0 + t)).1.resume cfg res2 t1).1.getTimeUntilBreak
        cfg t1 = cfg.workDuration - t) ∧
    ((((newManager.start cfg res3 t0).1.pauseInactive (t0 + t)).1.resumeFromInactive cfg res4
        t1).1.getTimeUntilBreak cfg t1 = cfg.workDuration - t) := by
  have hc1 : ¬ cfg.workDuration ≤ 0 := by omega
  constructor
  · rcases lt_or_eq_of_le h1 with hlt | heq
    · have hc2 : ¬ cfg.workDuration ≤ t := by omega
      have hc3 : ¬ cfg.workDuration < t := by omega
      simp [newManager, Manager.start, Manager.pause, Manager.resume, Manager.getTimeUntilBreak,
            scheduleWorkTimer, stopCurrentTimer, triggerBreak, if_neg hc1, if_neg hc2, if_neg hc3]
    · subst heq
      simp [newManager, Manager.start, Manager.pause, Manager.resume, Manager.getTimeUntilBreak,
            scheduleWorkTimer, stopCurrentTimer, triggerBreak, if_neg hc1]
  · rcases lt_or_eq_of_le h1 with hlt | heq
    · have hc2 : ¬ cfg.workDuration ≤ t := by omega
      have hc3 : ¬ cfg.workDuration < t := by omega
      simp [newManager, Manager.start, Manager.pauseInactive, Manager.resumeFromInactive,
            Manager.getTimeUntilBreak, scheduleWorkTimer, stopCurrentTimer, triggerBreak,
            if_neg hc1, if_neg hc2, if_neg hc3]
    · subst heq
      simp [newManager, Manager.start, Manager.pauseInactive, Manager.resumeFromInactive,
            Manager.getTimeUntilBreak, scheduleWorkTimer, stopCurrentTimer, triggerBreak,
            if_neg hc1]

/-- Witness for C2: the spec scenario — start at 0, `pauseInactive` after
100 s of running, `resumeFromInactive` at 500 s: the query returns
`workDuration - 100 s`. -/
theorem banked_elapsed_preserved_witness :
    (((newManager.start cfgEx (some 3) 0).1.pauseInactive
        (0 + 100 * nsPerSecond)).1.resumeFromInactive cfgEx (some 4)
        (500 * nsPerSecond)).1.getTimeUntilBreak cfgEx (500 * nsPerSecond) =
      cfgEx.workDuration - 100 * nsPerSecond :=
  (banked_elapsed_preserved cfgEx (some 1) (some 2) (some 3) (some 4) 0 (100 * nsPerSecond)
      (500 * nsPerSecond) (by norm_num [cfgEx, nsPerSecond])
      (by norm_num [nsPerSecond]) (by norm_num [cfgEx, nsPerSecond])).2

/-- Counterexample to C4 as stated: a Manager in `PausedManual` given
`resumeFromInactive` does not transition to `Running` — the Go guard accepts
only `StatePausedInactive`, so the operation is a no-op. -/
theorem resumeFromInactive_pausedManual_cex :
    (mPausedEx.resumeFromInactive cfgEx (some 1) 500).1.state ≠ TimerState.running := by
  decide

/-- C4 (amended): `resumeFromInactive` transitions to `Running` — stamping
`workStartedAt := now`, keeping the banked elapsed, re-arming the wake-up for
`workDuration - elapsed` — only from `PausedInactive`; from `PausedManual` it
is a silent no-op.  Only `resume` is accepted from both paused states, and
from `PausedManual` it performs the table's transition. -/
theorem resumeFromInactive_from_inactive_only (cfg : Config) (res : Option Int) (now : Int)
    (m mPM : Manager) (h : m.state = TimerState.pausedInactive)
    (hPM : mPM.state = TimerState.pausedManual)
    (hrem : 0 < cfg.workDuration - m.elapsed)
    (hremPM : 0 < cfg.workDuration - mPM.elapsed) :
    ((m.resumeFromInactive cfg res now).1.state = TimerState.running ∧
     (m.resumeFromInactive cfg res now).1.workStartTime = now ∧
     (m.resumeFromInactive cfg res now).1.elapsed = m.elapsed ∧
     (m.resumeFromInactive cfg res now).1.currentTimer =
        some (now + (cfg.workDuration - m.elapsed))) ∧
    mPM.resumeFromInactive cfg res now = (mPM, []) ∧
    ((mPM.resume cfg res now).1.state = TimerState.running ∧
     (mPM.resume cfg res now).1.workStartTime = now ∧
     (mPM.resume cfg res now).1.currentTimer =
        some (now + (cfg.workDuration - mPM.elapsed))) := by
  have hc : ¬ cfg.workDuration ≤ m.elapsed := by omega
  have hcPM : ¬ cfg.workDuration ≤ mPM.elapsed := by omega
  refine ⟨?_, ?_, ?_⟩
  · simp [Manager.resumeFromInactive, h, scheduleWorkTimer, stopCurrentTimer, if_neg hc]
  · simp [Manager.resumeFromInactive, hPM]
  · simp [Manager.resume, hPM, scheduleWorkTimer, stopCurrentTimer, if_neg hcPM]

/-- Witness for C4 (amended) at a concrete inactivity-paused Manager with
100 banked, resumed at instant 500. -/
theorem resumeFromInactive_from_inactive_only_witness :
    (mInactiveEx.resumeFromInactive cfgEx (some 1) 500).1.state = TimerState.running :=
  (resumeFromInactive_from_inactive_only cfgEx (some 1) 500 mInactiveEx mPausedEx rfl rfl
      (by norm_num [cfgEx, mInactiveEx, nsPerSecond])
      (by norm_num [cfgEx, mPausedEx, nsPerSecond])).1.1

/-- C5: a ledger write failure never blocks or rolls back a transition.  If
`RecordBreakStart` fails at the wake-up (so `currentBreakID` stays 0), the
scheduler still moves to `BreakRequired` with `breakStartedAt := now` and the
break-required notification still fires; and the subsequent `CompleteBreak`
(or `SkipBreak`) with `currentBreakID = 0` still moves to `Running` with
`elapsed := 0` and `workStartedAt := now1`, with no ledger write among its
effects (only the skipped ledger call differs from the success path). -/
theorem ledger_failure_does_not_block (cfg : Config) (res1 res2 : Option Int)
    (now now1 : Int) (m : Manager)
    (h : m.state = TimerState.running) (hid : m.currentBreakID = 0)
    (hW : 0 < cfg.workDuration) :
    (fireWorkTimer none now m).1 =
      { m with state := TimerState.breakRequired, breakStartTime := now } ∧
    Effect.invoke Callback.breakRequired true ∈ (fireWorkTimer none now m).2 ∧
    (fireWorkTimer none now m).1.completeBreak cfg res1 now1 =
      ({ m with state := TimerState.running, workStartTime := now1, elapsed := 0,
                currentBreakID := 0, breakStartTime := now,
                currentTimer := some (now1 + cfg.workDuration) },
       [Effect.invoke (Callback.stateChange TimerState.running) false,
        Effect.invoke Callback.breakComplete true]) ∧
    (fireWorkTimer none now m).1.skipBreak cfg res2 now1 =
      ({ m with state := TimerState.running, workStartTime := now1, elapsed := 0,
                currentBreakID := 0, breakStartTime := now,
                currentTimer := some (now1 + cfg.workDuration) },
       [Effect.invoke (Callback.stateChange TimerState.running) false]) := by
  have hc1 : ¬ cfg.workDuration ≤ 0 := by omega
  refine ⟨?_, ?_, ?_, ?_⟩ <;>
    simp [fireWorkTimer, h, triggerBreak, Manager.completeBreak, Manager.skipBreak,
          scheduleWorkTimer, stopCurrentTimer, hid, if_neg hc1]

/-- Witness for C5: the wake-up fires at instant 3 on a running Manager with
no open ledger entry and the break-start write failing. -/
theorem ledger_failure_does_not_block_witness :
    (fireWorkTimer none 3 mRunningEx).1 =
      { mRunningEx with state := TimerState.breakRequired, breakStartTime := 3 } :=
  (ledger_failure_does_not_block cfgEx (some 9) (some 8) 3 7 mRunningEx rfl rfl
      (by norm_num [cfgEx, nsPerSecond])).1

/-- Counterexample to C7 as stated: when the work wake-up fires in `Running`,
the break-required callback is invoked synchronously inside the mutex-held
critical section (`triggerBreak` calls `m.onBreakRequired()` directly under
`m.mu`), so the scheduler's lock is held across that notification callback. -/
theorem break_required_callback_under_lock_cex :
    Effect.invoke Callback.breakRequired true ∈ (fireWorkTimer (some 1) 0 mRunningEx).2 := by
  decide

/-- C7 (amended): every state-change notification produced by any trigger is
dispatched asynchronously (`go m.onStateChange(state)`), never blocking the
caller and never run under the scheduler's lock; the break-required and
break-complete callbacks, by contrast, are invoked synchronously while the
lock is held (see the counterexample). -/
theorem state_change_notifications_async (cfg : Config) (m : Manager) (tr : Trigger)
    (s : TimerState) (b : Bool)
    (hmem : Effect.invoke (Callback.stateChange s) b ∈ (applyTrigger cfg m tr).2) :
    b = false := by
  cases tr <;>
    simp only [applyTrigger, Manager.start, Manager.pause, Manager.pauseInactive, Manager.resume,
      Manager.resumeFromInactive, Manager.completeBreak, Manager.skipBreak, Manager.stop,
      fireWorkTimer, scheduleWorkTimer, stopCurrentTimer, triggerBreak] at hmem <;>
    (repeat' split at hmem) <;>
    simp_all

/-- Witness for C7 (amended): `stop` on the fresh Manager emits its
state-change notification with the async flag. -/
theorem state_change_notifications_async_witness :
    Effect.invoke (Callback.stateChange TimerState.pausedManual) false ∈
      (applyTrigger cfgEx newManager Trigger.stop).2 ∧ (false : Bool) = false :=
  ⟨by decide, state_change_notifications_async cfgEx newManager Trigger.stop
      TimerState.pausedManual false (by decide)⟩

end TwentyTwenty
